import Mathlib

/-!
Shallow embedding of the confidence-grading and profit/loss settlement core of
the football-predictions repository, together with theorems settling the
frozen claims about it.

Numeric modelling: the Python scripts compute with floats and pandas `NaN`
markers for missing database values.  We model numbers as exact rationals `ℚ`
and a possibly-missing value as `Option ℚ` (`none` plays the role of
`NaN`/NULL).  Python's `round(x, 2)` (round-half-to-even at two decimals) is
modelled exactly by `pyRound2`.
-/

/-- Does the character list `s` start with the pattern `pat`?  (helper for the
Python substring tests `"Over" in s`). -/
def listStarts : List Char → List Char → Bool
  | [], _ => true
  | _ :: _, [] => false
  | p :: ps, c :: cs => p == c && listStarts ps cs

/-- Does the pattern `pat` occur contiguously inside the character list `s`? -/
def listHasPat (pat : List Char) : List Char → Bool
  | [] => pat.isEmpty
  | c :: cs => listStarts pat (c :: cs) || listHasPat pat cs

/-- Python's substring test `pat in s` on strings. -/
def strContains (s pat : String) : Bool :=
  listHasPat pat.toList s.toList

/-- Python's `round(q, 2)`: round to two decimal places, halves to the even
hundredth. -/
def pyRound2 (q : ℚ) : ℚ :=
  let x : ℚ := q * 100
  let f : ℤ := ⌊x⌋
  let r : ℚ := x - (f : ℚ)
  let n : ℤ :=
    if r < 1 / 2 then f
    else if 1 / 2 < r then f + 1
    else if f % 2 = 0 then f else f + 1
  (n : ℚ) / 100

/-- `numpy.isclose(a, b, rtol=1e-5)` with the default absolute tolerance
`atol = 1e-8`: `|a - b| ≤ atol + rtol * |b|`. -/
def npIsClose (a b : ℚ) : Bool :=
  |a - b| ≤ 1 / 100000000 + 1 / 100000 * |b|

/-- Pandas row-wise `min` over possibly-missing values: missing entries are
skipped (`skipna=True` default); the minimum of two present values is taken. -/
def optMin : Option ℚ → Option ℚ → Option ℚ
  | none, b => b
  | some a, none => some a
  | some a, some b => some (min a b)

namespace NewMlGrade

/-- `get_pred_side` from `new_ml_grade.py`: extract the predicted side from the
`predicted_winner` label; an unrecognised label yields `NaN` (here `none`). -/
def get_pred_side (predicted_winner : String) : Option String :=
  if predicted_winner = "Home Win" then some "home"
  else if predicted_winner = "Away Win" then some "away"
  else if predicted_winner = "Draw" then some "draw"
  else none

/-- `get_pred_side_odds` from `new_ml_grade.py`: the odds for the predicted
side; `NaN` when the side itself is `NaN` or unrecognised. -/
def get_pred_side_odds (pred_side : Option String)
    (home_odds away_odds draw_odds : Option ℚ) : Option ℚ :=
  match pred_side with
  | some s =>
      if s = "home" then home_odds
      else if s = "away" then away_odds
      else if s = "draw" then draw_odds
      else none
  | none => none

/-- `df[["home_odds","away_odds","draw_odds"]].min(axis=1)` from
`new_ml_grade.py`: the market-favourite odds, skipping missing values. -/
def min_all_odds (home_odds away_odds draw_odds : Option ℚ) : Option ℚ :=
  optMin home_odds (optMin away_odds draw_odds)

/-- `calc_market_factor` from `new_ml_grade.py`: `NaN` for missing or
non-positive inputs; `1/odds` when predicting the market favourite
(`np.isclose` with `rtol=1e-5`); `odds/min_odds` otherwise. -/
def calc_market_factor (pred_side_odds min_odds : Option ℚ) : Option ℚ :=
  match pred_side_odds, min_odds with
  | some po, some mo =>
      if po ≤ 0 ∨ mo ≤ 0 then none
      else if npIsClose po mo then some (1 / po)
      else some (po / mo)
  | _, _ => none

/-- The market factor of a full row, composing steps 2–5 of
`calculate_grades` in `new_ml_grade.py`. -/
def row_market_factor (predicted_winner : String)
    (home_odds away_odds draw_odds : Option ℚ) : Option ℚ :=
  calc_market_factor
    (get_pred_side_odds (get_pred_side predicted_winner) home_odds away_odds draw_odds)
    (min_all_odds home_odds away_odds draw_odds)

/-- Step 6 of `calculate_grades`: `cal_confidence = abs_pred_goal_diff *
market_factor` (missing market factor propagates as `NaN`). -/
def cal_confidence (predicted_home_goals predicted_away_goals : ℚ)
    (market_factor : Option ℚ) : Option ℚ :=
  market_factor.map (fun m => |predicted_home_goals - predicted_away_goals| * m)

/-- `grade_by_confidence_inverted` from `new_ml_grade.py`: `None` for `NaN`
confidence, otherwise strict `<` against the three ascending thresholds. -/
def grade_by_confidence_inverted (confidence : Option ℚ) : Option String :=
  match confidence with
  | none => none
  | some c =>
      if c < 0.1264 then some "A"
      else if c < 0.3064 then some "B"
      else if c < 0.6194 then some "C"
      else some "D"

/-- Steps 1–8 of `calculate_grades` followed by the `fillna("D")` safety net:
the `ml_grade` value actually persisted for a row. -/
def ml_grade_of_row (predicted_winner : String)
    (predicted_home_goals predicted_away_goals : ℚ)
    (home_odds away_odds draw_odds : Option ℚ) : String :=
  (grade_by_confidence_inverted
    (cal_confidence predicted_home_goals predicted_away_goals
      (row_market_factor predicted_winner home_odds away_odds draw_odds))).getD "D"

end NewMlGrade

namespace OuGrade

/-- The prediction-direction extraction inside `calculate_advanced_ou_confidence`
in `ou_grade.py`: a label containing `"Over"` predicts over (checked first), a
label containing `"Under"` predicts under, anything else is unparseable. -/
def ou_predicted_direction (predicted_outcome : String) : Option String :=
  if strContains predicted_outcome "Over" then some "over"
  else if strContains predicted_outcome "Under" then some "under"
  else none

/-- The market-factor computation inside `calculate_advanced_ou_confidence` in
`ou_grade.py`: `1/pred_odds` when the predicted direction is the market
favourite (strictly lower over-odds mean over is favourite, ties favour
under), `pred_odds/min_odds` otherwise. -/
def ou_market_factor (pred_direction : String) (over_odds under_odds : ℚ) : ℚ :=
  let market_favorite := if over_odds < under_odds then "over" else "under"
  let min_odds := if over_odds < under_odds then over_odds else under_odds
  let pred_odds := if pred_direction = "over" then over_odds else under_odds
  if pred_direction = market_favorite then 1 / pred_odds else pred_odds / min_odds

/-- `calculate_advanced_ou_confidence` from `ou_grade.py`: distance of the
predicted total from the fixed 2.5 line, dampened for contrarian calls,
multiplied by the market factor; `NaN` (`none`) for missing or non-positive
odds, an unparseable label, or a negative result. -/
def calculate_advanced_ou_confidence (predicted_home_goals predicted_away_goals : ℚ)
    (over_2_5_odds under_2_5_odds : Option ℚ) (predicted_outcome : String) : Option ℚ :=
  let total_predicted := predicted_home_goals + predicted_away_goals
  let distance_from_threshold := |total_predicted - 2.5|
  match over_2_5_odds, under_2_5_odds with
  | some over_odds, some under_odds =>
      if over_odds ≤ 0 ∨ under_odds ≤ 0 then none
      else
        let min_odds := if over_odds < under_odds then over_odds else under_odds
        let max_odds := if over_odds < under_odds then under_odds else over_odds
        match ou_predicted_direction predicted_outcome with
        | none => none
        | some pred_direction =>
            let market_factor := ou_market_factor pred_direction over_odds under_odds
            let distance_factor :=
              if pred_direction = "over" then
                if total_predicted ≥ 2.5 then distance_from_threshold
                else distance_from_threshold * (min_odds / max_odds)
              else
                if total_predicted ≤ 2.5 then distance_from_threshold
                else distance_from_threshold * (min_odds / max_odds)
            let confidence := distance_factor * market_factor
            if confidence ≥ 0 then some confidence else none
  | _, _ => none

/-- `assign_ou_grade` from `ou_grade.py`: `"D"` for `NaN` confidence, otherwise
`≥` against the three descending thresholds `0.75`, `0.70`, `0.266667`. -/
def assign_ou_grade (confidence : Option ℚ) : String :=
  match confidence with
  | none => "D"
  | some c =>
      if c ≥ 0.75 then "A"
      else if c ≥ 0.70 then "B"
      else if c ≥ 0.266667 then "C"
      else "D"

end OuGrade

namespace SaveMain

/-- The if/elif band lookup of `calculate_grade` in `save_main.py`: five-point
steps from 90 down to 50 on `score`, with `"D"` below 50. -/
def grade_band (score : ℚ) : String :=
  if score ≥ 90 then "A+"
  else if score ≥ 85 then "A"
  else if score ≥ 80 then "A-"
  else if score ≥ 75 then "B+"
  else if score ≥ 70 then "B"
  else if score ≥ 65 then "B-"
  else if score ≥ 60 then "C+"
  else if score ≥ 55 then "C"
  else if score ≥ 50 then "C-"
  else "D"

/-- `calculate_grade` from `save_main.py` (an identical copy lives in
`v3_ml.py`): `None` for `NaN`, out-of-range confidence clamped into `[0, 1]`
(with a printed warning, not an exception), then the band lookup on
`score = confidence * 100`. -/
def calculate_grade (confidence : Option ℚ) : Option String :=
  match confidence with
  | none => none
  | some c0 =>
      let c := if c0 < 0 ∨ c0 > 1 then max 0 (min 1 c0) else c0
      some (grade_band (c * 100))

end SaveMain

namespace ValidateMain

/-- One database row as read by the settlement loop of `validate_main.py`
(`validate_predictions.py` reads the same columns and runs byte-for-byte the
same settlement logic).  `ctmcl` is the dynamic prediction-time line, carried
along to show the settlement never consults it. -/
structure Row where
  home_team : String
  away_team : String
  predicted_outcome : String
  predicted_winner : String
  ctmcl : ℚ
  over_2_5_odds : Option ℚ
  under_2_5_odds : Option ℚ
  home_odds : Option ℚ
  away_odds : Option ℚ
  draw_odds : Option ℚ

/-- The actual-winner determination of `validate_main.py`: the home team's
name when it scored more, the away team's name when it scored more, the
literal `"Draw"` on a tie. -/
def actual_winner (home_team away_team : String) (home_score away_score : ℤ) : String :=
  if home_score > away_score then home_team
  else if away_score > home_score then away_team
  else "Draw"

/-- The actual over/under determination of `validate_main.py`: the integer
goal total compared against the fixed 2.5 line. -/
def actual_over_under (total_goals : ℤ) : String :=
  if (total_goals : ℚ) > 2.5 then "Over 2.5" else "Under 2.5"

/-- The winning-bet payout used throughout the settlement loops:
`round(odds - 1, 2) if not pd.isna(odds) else 0`. -/
def settleWin (odds : Option ℚ) : ℚ :=
  match odds with
  | some v => pyRound2 (v - 1)
  | none => 0

/-- `profit_loss_ou` as computed in the settlement loop of
`validate_main.py`: a label containing `"Over"` is an over bet, every other
label is settled as an under bet. -/
def profit_loss_ou (r : Row) (total_goals : ℤ) : ℚ :=
  let aou := actual_over_under total_goals
  if strContains r.predicted_outcome "Over" then
    if strContains aou "Over" then settleWin r.over_2_5_odds else -1
  else
    if strContains aou "Under" then settleWin r.under_2_5_odds else -1

/-- `profit_loss_ml` as computed in the settlement loop of
`validate_main.py`: the three recognised labels are compared against the
actual winner string; any other label falls into the final `else` and is
silently settled as `0.0`. -/
def profit_loss_ml (r : Row) (home_score away_score : ℤ) : ℚ :=
  let aw := actual_winner r.home_team r.away_team home_score away_score
  if r.predicted_winner = "Home Win" then
    if aw = r.home_team then settleWin r.home_odds else -1
  else if r.predicted_winner = "Away Win" then
    if aw = r.away_team then settleWin r.away_odds else -1
  else if r.predicted_winner = "Draw" then
    if aw = "Draw" then settleWin r.draw_odds else -1
  else 0

/-- The four settlement outputs the loop writes back for a complete match:
actual winner, actual over/under, O/U profit/loss, moneyline profit/loss. -/
def settle (r : Row) (home_score away_score : ℤ) : String × String × ℚ × ℚ :=
  (actual_winner r.home_team r.away_team home_score away_score,
   actual_over_under (home_score + away_score),
   profit_loss_ou r (home_score + away_score),
   profit_loss_ml r home_score away_score)

end ValidateMain

namespace V3Validate

/-- `profit_loss_winner` from `v3_validate.py`: a matched prediction pays
`round(odds - 1, 2)` on the predicted side, everything else (including an
unrecognised label) loses the full stake. -/
def profit_loss_winner (predicted_winner home_team away_team actual_w : String)
    (home_odds away_odds draw_odds : ℚ) : ℚ :=
  if predicted_winner = "Home Win" ∧ actual_w = home_team then pyRound2 (home_odds - 1)
  else if predicted_winner = "Away Win" ∧ actual_w = away_team then pyRound2 (away_odds - 1)
  else if predicted_winner = "Draw" ∧ actual_w = "Draw" then pyRound2 (draw_odds - 1)
  else -1

end V3Validate

/-- Claim vocabulary: the moneyline side that actually occurred, read off the
final score exactly as the settlement loop reads it (tie means draw). -/
def mlActualSide (home_score away_score : ℤ) : String :=
  if home_score > away_score then "home"
  else if away_score > home_score then "away"
  else "draw"

/-- Claim vocabulary: the totals side that actually occurred, the goal total
against the fixed 2.5 line exactly as the settlement loop compares it. -/
def ouActualSide (total_goals : ℤ) : String :=
  if (total_goals : ℚ) > 2.5 then "over" else "under"

/-- Claim vocabulary: the odds a settlement row offers on a moneyline side. -/
def mlSideOddsOf (r : ValidateMain.Row) (side : String) : Option ℚ :=
  NewMlGrade.get_pred_side_odds (some side) r.home_odds r.away_odds r.draw_odds

/-- Claim vocabulary: the odds a settlement row offers on a totals side. -/
def ouSideOddsOf (r : ValidateMain.Row) (dir : String) : Option ℚ :=
  if dir = "over" then r.over_2_5_odds else r.under_2_5_odds

/-- C3: for every defined moneyline confidence value `c`, the assigned grade is
`A` iff `c < 0.1264`, `B` iff `0.1264 ≤ c < 0.3064`, `C` iff
`0.3064 ≤ c < 0.6194`, and `D` iff `c ≥ 0.6194`; in particular `c` exactly
equal to `0.1264` yields grade `B`, not `A`, because every boundary comparison
is strict less-than. -/
theorem C3_moneyline_grade_thresholds (c : ℚ) :
    (NewMlGrade.grade_by_confidence_inverted (some c) = some "A" ↔ c < 0.1264) ∧
    (NewMlGrade.grade_by_confidence_inverted (some c) = some "B" ↔ 0.1264 ≤ c ∧ c < 0.3064) ∧
    (NewMlGrade.grade_by_confidence_inverted (some c) = some "C" ↔ 0.3064 ≤ c ∧ c < 0.6194) ∧
    (NewMlGrade.grade_by_confidence_inverted (some c) = some "D" ↔ 0.6194 ≤ c) ∧
    NewMlGrade.grade_by_confidence_inverted (some (0.1264 : ℚ)) = some "B" := by
  unfold NewMlGrade.grade_by_confidence_inverted
  norm_num
  split_ifs with h1 h2 h3 <;>
    refine ⟨?_, ?_, ?_, ?_⟩ <;> simp_all <;> try linarith

/-- C4 counterexample: the claim grades every totals confidence below `0.2667`
as `D`, but the source threshold is `0.266667`, so the concrete confidence
`0.26668` — which is below `0.2667` — is graded `C` by the code. -/
theorem C4_counterexample :
    OuGrade.assign_ou_grade (some (0.26668 : ℚ)) = "C" ∧ (0.26668 : ℚ) < 0.2667 := by
  constructor
  · norm_num [OuGrade.assign_ou_grade]
  · norm_num

/-- C4 (amended): for every totals confidence value `c`, the assigned grade is
`A` iff `c ≥ 0.75`, `B` iff `0.70 ≤ c < 0.75`, `C` iff `0.266667 ≤ c < 0.70`
(the source constant `OU_C_THRESHOLD = 0.266667`, not the rounded `0.2667`),
and `D` iff `c < 0.266667`; a missing confidence is graded `D`, and the
boundary value `0.75` itself yields `A` because every comparison is
greater-or-equal against a lower bound. -/
theorem C4_totals_grade_thresholds (c : ℚ) :
    (OuGrade.assign_ou_grade (some c) = "A" ↔ 0.75 ≤ c) ∧
    (OuGrade.assign_ou_grade (some c) = "B" ↔ 0.70 ≤ c ∧ c < 0.75) ∧
    (OuGrade.assign_ou_grade (some c) = "C" ↔ 0.266667 ≤ c ∧ c < 0.70) ∧
    (OuGrade.assign_ou_grade (some c) = "D" ↔ c < 0.266667) ∧
    OuGrade.assign_ou_grade none = "D" ∧
    OuGrade.assign_ou_grade (some (0.75 : ℚ)) = "A" := by
  unfold OuGrade.assign_ou_grade
  norm_num
  split_ifs with h1 h2 h3 <;>
    refine ⟨?_, ?_, ?_, ?_⟩ <;> simp_all <;> try linarith

/-- Helper: the band lookup of `save_main.py` characterised by interval
membership of the score. -/
theorem grade_band_spec (s : ℚ) :
    (SaveMain.grade_band s = "A+" ↔ 90 ≤ s) ∧
    (SaveMain.grade_band s = "A" ↔ 85 ≤ s ∧ s < 90) ∧
    (SaveMain.grade_band s = "A-" ↔ 80 ≤ s ∧ s < 85) ∧
    (SaveMain.grade_band s = "B+" ↔ 75 ≤ s ∧ s < 80) ∧
    (SaveMain.grade_band s = "B" ↔ 70 ≤ s ∧ s < 75) ∧
    (SaveMain.grade_band s = "B-" ↔ 65 ≤ s ∧ s < 70) ∧
    (SaveMain.grade_band s = "C+" ↔ 60 ≤ s ∧ s < 65) ∧
    (SaveMain.grade_band s = "C" ↔ 55 ≤ s ∧ s < 60) ∧
    (SaveMain.grade_band s = "C-" ↔ 50 ≤ s ∧ s < 55) ∧
    (SaveMain.grade_band s = "D" ↔ s < 50) := by
  unfold SaveMain.grade_band
  split_ifs with g1 g2 g3 g4 g5 g6 g7 g8 g9 <;>
    refine ⟨?_, ?_, ?_, ?_, ?_, ?_, ?_, ?_, ?_, ?_⟩ <;>
      simp_all <;> intros <;> linarith

/-- Helper: `calculate_grade` on a present confidence is exactly the band
lookup of the clamped score, whether or not the input was in range. -/
theorem calculate_grade_clamped (c : ℚ) :
    SaveMain.calculate_grade (some c) = some (SaveMain.grade_band (max 0 (min 1 c) * 100)) := by
  simp only [SaveMain.calculate_grade]
  split_ifs with h
  · rfl
  · push_neg at h
    rw [min_eq_right h.2, max_eq_right h.1]

/-- C9: the display-only grading maps a `[0,1]` confidence score to bands
`A+` … `D` at 5-point intervals of `score = confidence * 100` starting at 90
(`score ≥ 90` gives `A+`, each 5 points lower gives the next band down, below
50 gives `D`); every input outside `[0,1]` is clamped into `[0,1]` before the
lookup (so a grade is always produced, never an exception): a negative input
grades like `0` (grade `D`) and an input above one grades like `1`
(grade `A+`). -/
theorem C9_display_grade_bands (c : ℚ) :
    (SaveMain.calculate_grade (some c) =
       some (SaveMain.grade_band (max 0 (min 1 c) * 100))) ∧
    (c < 0 → SaveMain.calculate_grade (some c) = some "D") ∧
    (1 < c → SaveMain.calculate_grade (some c) = some "A+") ∧
    (SaveMain.calculate_grade (some c) = some "A+" ↔ 90 ≤ max 0 (min 1 c) * 100) ∧
    (SaveMain.calculate_grade (some c) = some "A" ↔
       85 ≤ max 0 (min 1 c) * 100 ∧ max 0 (min 1 c) * 100 < 90) ∧
    (SaveMain.calculate_grade (some c) = some "A-" ↔
       80 ≤ max 0 (min 1 c) * 100 ∧ max 0 (min 1 c) * 100 < 85) ∧
    (SaveMain.calculate_grade (some c) = some "B+" ↔
       75 ≤ max 0 (min 1 c) * 100 ∧ max 0 (min 1 c) * 100 < 80) ∧
    (SaveMain.calculate_grade (some c) = some "B" ↔
       70 ≤ max 0 (min 1 c) * 100 ∧ max 0 (min 1 c) * 100 < 75) ∧
    (SaveMain.calculate_grade (some c) = some "B-" ↔
       65 ≤ max 0 (min 1 c) * 100 ∧ max 0 (min 1 c) * 100 < 70) ∧
    (SaveMain.calculate_grade (some c) = some "C+" ↔
       60 ≤ max 0 (min 1 c) * 100 ∧ max 0 (min 1 c) * 100 < 65) ∧
    (SaveMain.calculate_grade (some c) = some "C" ↔
       55 ≤ max 0 (min 1 c) * 100 ∧ max 0 (min 1 c) * 100 < 60) ∧
    (SaveMain.calculate_grade (some c) = some "C-" ↔
       50 ≤ max 0 (min 1 c) * 100 ∧ max 0 (min 1 c) * 100 < 55) ∧
    (SaveMain.calculate_grade (some c) = some "D" ↔ max 0 (min 1 c) * 100 < 50) := by
  have hmain := calculate_grade_clamped c
  have hb := grade_band_spec (max 0 (min 1 c) * 100)
  obtain ⟨b1, b2, b3, b4, b5, b6, b7, b8, b9, b10⟩ := hb
  refine ⟨hmain, ?_, ?_, ?_, ?_, ?_, ?_, ?_, ?_, ?_, ?_, ?_, ?_⟩
  · intro h
    have h0 : max 0 (min 1 c) = 0 := by
      rw [min_eq_right (by linarith : c ≤ 1), max_eq_left (by linarith)]
    rw [hmain, h0]
    norm_num [SaveMain.grade_band]
  · intro h
    have h1 : max 0 (min 1 c) = 1 := by
      rw [min_eq_left (by linarith : 1 ≤ c), max_eq_right (by norm_num)]
    rw [hmain, h1]
    norm_num [SaveMain.grade_band]
  all_goals rw [hmain, Option.some_inj]
  exacts [b1, b2, b3, b4, b5, b6, b7, b8, b9, b10]

/-- C9 witness: a negative confidence is clamped and graded `D`, a confidence
above one is clamped and graded `A+`. -/
theorem C9_witness :
    SaveMain.calculate_grade (some (-1/2 : ℚ)) = some "D" ∧
    SaveMain.calculate_grade (some (3/2 : ℚ)) = some "A+" :=
  ⟨(C9_display_grade_bands (-1/2)).2.1 (by norm_num),
   (C9_display_grade_bands (3/2)).2.2.1 (by norm_num)⟩

/-- Helper: concrete substring facts about the four settlement labels. -/
theorem strContains_labels :
    strContains "Over 2.5" "Over" = true ∧
    strContains "Over 2.5" "Under" = false ∧
    strContains "Under 2.5" "Over" = false ∧
    strContains "Under 2.5" "Under" = true := by decide

/-- C7 counterexample: the claim says every grading operation resolves an
undefined confidence to grade `D` and never to a null value, but the
display grading `calculate_grade` of `save_main.py` returns `None` for a
missing confidence, so the persisted grade can be null there. -/
theorem C7_counterexample :
    SaveMain.calculate_grade none = none ∧ SaveMain.calculate_grade none ≠ some "D" := by
  constructor
  · rfl
  · simp [SaveMain.calculate_grade]

/-- C7 (amended): the moneyline pipeline of `new_ml_grade.py` and the totals
grading of `ou_grade.py` resolve an undefined confidence (missing or
non-positive odds, or an unparseable prediction label) to the worst grade
`"D"`, never to a null value and never an exception, so those persisted grade
columns are never null; the display-only `calculate_grade` of `save_main.py`,
however, returns `None` for a missing confidence, so that grade field can be
persisted as null. -/
theorem C7_grade_fail_safe :
    (∀ (pw : String) (ph pa : ℚ) (ho ao dr : Option ℚ),
       NewMlGrade.row_market_factor pw ho ao dr = none →
         NewMlGrade.ml_grade_of_row pw ph pa ho ao dr = "D") ∧
    (∀ (pw : String) (ph pa : ℚ) (ho ao dr : Option ℚ),
       NewMlGrade.ml_grade_of_row pw ph pa ho ao dr = "A" ∨
       NewMlGrade.ml_grade_of_row pw ph pa ho ao dr = "B" ∨
       NewMlGrade.ml_grade_of_row pw ph pa ho ao dr = "C" ∨
       NewMlGrade.ml_grade_of_row pw ph pa ho ao dr = "D") ∧
    (∀ c : Option ℚ,
       OuGrade.assign_ou_grade c = "A" ∨ OuGrade.assign_ou_grade c = "B" ∨
       OuGrade.assign_ou_grade c = "C" ∨ OuGrade.assign_ou_grade c = "D") ∧
    OuGrade.assign_ou_grade none = "D" ∧
    SaveMain.calculate_grade none = none := by
  refine ⟨?_, ?_, ?_, rfl, rfl⟩
  · intro pw ph pa ho ao dr h
    unfold NewMlGrade.ml_grade_of_row
    rw [h]
    rfl
  · intro pw ph pa ho ao dr
    unfold NewMlGrade.ml_grade_of_row
    rcases NewMlGrade.cal_confidence ph pa (NewMlGrade.row_market_factor pw ho ao dr) with
      _ | c
    · simp [NewMlGrade.grade_by_confidence_inverted]
    · dsimp only [NewMlGrade.grade_by_confidence_inverted]
      split_ifs <;> simp
  · intro c
    rcases c with _ | c
    · simp [OuGrade.assign_ou_grade]
    · dsimp only [OuGrade.assign_ou_grade]
      split_ifs <;> simp

/-- C7 witness: the spec's own fail-safe example — a record predicting the
home side with `home_odds = 0` (one invalid odds value) grades `"D"`. -/
theorem C7_witness :
    NewMlGrade.ml_grade_of_row "Home Win" 2 1 (some 0) (some 1.8) (some 3.1) = "D" :=
  C7_grade_fail_safe.1 "Home Win" 2 1 (some 0) (some 1.8) (some 3.1) (by
    norm_num [NewMlGrade.row_market_factor, NewMlGrade.get_pred_side,
      NewMlGrade.get_pred_side_odds, NewMlGrade.min_all_odds, optMin,
      NewMlGrade.calc_market_factor])

/-- C8: the settlement loop determines the actual moneyline side from the
final score (home side when the home team scored more, away side when the
away team scored more, a tie yields `"Draw"`), and the actual totals side by
comparing the integer goal total against the fixed 2.5 line (total `> 2.5` is
`"Over 2.5"`, otherwise `"Under 2.5"`); the entire settlement output is
independent of the dynamic prediction-time `ctmcl` threshold carried on the
row. -/
theorem C8_actual_side (r : ValidateMain.Row) (hs aws : ℤ) (c : ℚ) :
    (hs > aws → ValidateMain.actual_winner r.home_team r.away_team hs aws = r.home_team) ∧
    (aws > hs → ValidateMain.actual_winner r.home_team r.away_team hs aws = r.away_team) ∧
    (hs = aws → ValidateMain.actual_winner r.home_team r.away_team hs aws = "Draw") ∧
    (((hs + aws : ℤ) : ℚ) > 2.5 →
       ValidateMain.actual_over_under (hs + aws) = "Over 2.5") ∧
    (¬(((hs + aws : ℤ) : ℚ) > 2.5) →
       ValidateMain.actual_over_under (hs + aws) = "Under 2.5") ∧
    ValidateMain.settle { r with ctmcl := c } hs aws = ValidateMain.settle r hs aws := by
  refine ⟨?_, ?_, ?_, ?_, ?_, rfl⟩ <;>
    intro h <;>
      first
        | (unfold ValidateMain.actual_winner; split_ifs <;> first | rfl | omega)
        | (unfold ValidateMain.actual_over_under; split_ifs <;> first | rfl | exact absurd (by assumption) h)

/-- C8 witness: a 2–1 final is a home win, and its goal total 3 settles as
over the fixed 2.5 line. -/
theorem C8_witness :
    ValidateMain.actual_winner "Alpha" "Beta" 2 1 = "Alpha" ∧
    ValidateMain.actual_over_under (2 + 1) = "Over 2.5" := by
  have h := C8_actual_side
    { home_team := "Alpha", away_team := "Beta", predicted_outcome := "Over 2.5",
      predicted_winner := "Home Win", ctmcl := 2.5, over_2_5_odds := none,
      under_2_5_odds := none, home_odds := none, away_odds := none,
      draw_odds := none } 2 1 0
  exact ⟨h.1 (by omega), h.2.2.2.1 (by norm_num)⟩

/-- C10: a settled moneyline record whose stored predicted-winner label is
none of `"Home Win"`, `"Away Win"`, `"Draw"` falls through to the final
`else` of the settlement calculator and is assigned a profit/loss of exactly
`0.0` — silently treated as a push rather than `-1.0` or an error. -/
theorem C10_unknown_ml_label_push (r : ValidateMain.Row) (hs aws : ℤ)
    (h1 : r.predicted_winner ≠ "Home Win") (h2 : r.predicted_winner ≠ "Away Win")
    (h3 : r.predicted_winner ≠ "Draw") :
    ValidateMain.profit_loss_ml r hs aws = 0 := by
  unfold ValidateMain.profit_loss_ml
  simp [h1, h2, h3]

/-- C10 witness: the label `"Home"` (not one of the three recognised labels)
settles as a push even though the bet would have lost. -/
theorem C10_witness :
    ValidateMain.profit_loss_ml
      { home_team := "Alpha", away_team := "Beta", predicted_outcome := "Over 2.5",
        predicted_winner := "Home", ctmcl := 2.5, over_2_5_odds := none,
        under_2_5_odds := none, home_odds := some 2, away_odds := some 3,
        draw_odds := some 4 } 0 1 = 0 :=
  C10_unknown_ml_label_push _ 0 1 (by decide) (by decide) (by decide)

/-- C2 counterexample: a record predicting the home side with
`home_odds = 2`, `away_odds = 3` and a missing `draw_odds` has a missing odds
value, yet its market factor is defined: the pandas minimum skips the missing
entry, the predicted side is then the favourite, and the factor is `1/2` —
contradicting the claim that any missing odds value leaves the market factor
undefined. -/
theorem C2_counterexample :
    NewMlGrade.row_market_factor "Home Win" (some 2) (some 3) none = some (1 / 2) ∧
    NewMlGrade.row_market_factor "Home Win" (some 2) (some 3) none ≠ none := by
  have h : NewMlGrade.row_market_factor "Home Win" (some 2) (some 3) none = some (1 / 2) := by
    norm_num [NewMlGrade.row_market_factor, NewMlGrade.get_pred_side,
      NewMlGrade.get_pred_side_odds, NewMlGrade.min_all_odds, optMin,
      NewMlGrade.calc_market_factor, npIsClose, min_def]
  exact ⟨h, by rw [h]; simp⟩

/-- C2 (amended): when all three side odds are present and positive and the
predicted side parses, the market factor is `1/po` if the predicted side's
odds `po` are within `np.isclose` tolerance (`rtol = 1e-5`, default
`atol = 1e-8`) of the minimum odds, and `po / minOdds` otherwise; the factor
is undefined (with no exception raised) when the predicted side is
unparseable, when the predicted side's own odds are missing or non-positive,
or when the minimum of the *present* odds is non-positive — but a missing
odds value on a non-predicted side is simply skipped by the minimum and does
not make the factor undefined. -/
theorem C2_market_factor :
    (∀ (pw : String) (ho ao dr : ℚ), 0 < ho → 0 < ao → 0 < dr →
       ∀ po, NewMlGrade.get_pred_side_odds (NewMlGrade.get_pred_side pw)
               (some ho) (some ao) (some dr) = some po →
         NewMlGrade.row_market_factor pw (some ho) (some ao) (some dr) =
           some (if npIsClose po (min ho (min ao dr)) then 1 / po
                 else po / min ho (min ao dr))) ∧
    (∀ (pw : String) (ho ao dr : Option ℚ),
       NewMlGrade.get_pred_side pw = none →
         NewMlGrade.row_market_factor pw ho ao dr = none) ∧
    (∀ (pw : String) (ho ao dr : Option ℚ),
       NewMlGrade.get_pred_side_odds (NewMlGrade.get_pred_side pw) ho ao dr = none →
         NewMlGrade.row_market_factor pw ho ao dr = none) ∧
    (∀ (pw : String) (ho ao dr : Option ℚ) (po : ℚ),
       NewMlGrade.get_pred_side_odds (NewMlGrade.get_pred_side pw) ho ao dr = some po →
       po ≤ 0 → NewMlGrade.row_market_factor pw ho ao dr = none) ∧
    (∀ (pw : String) (ho ao dr : Option ℚ) (mo : ℚ),
       NewMlGrade.min_all_odds ho ao dr = some mo → mo ≤ 0 →
         NewMlGrade.row_market_factor pw ho ao dr = none) := by
  have hsome : ∀ po mo : ℚ,
      NewMlGrade.calc_market_factor (some po) (some mo) =
        if po ≤ 0 ∨ mo ≤ 0 then none
        else if npIsClose po mo then some (1 / po) else some (po / mo) :=
    fun _ _ => rfl
  refine ⟨?_, ?_, ?_, ?_, ?_⟩
  · intro pw ho ao dr hho hao hdr po hpo
    have hpos : 0 < po := by
      rcases hside : NewMlGrade.get_pred_side pw with _ | s
      · rw [hside] at hpo
        simp [NewMlGrade.get_pred_side_odds] at hpo
      · rw [hside] at hpo
        dsimp only [NewMlGrade.get_pred_side_odds] at hpo
        split_ifs at hpo <;> simp_all
    have hminpos : 0 < min ho (min ao dr) := lt_min hho (lt_min hao hdr)
    unfold NewMlGrade.row_market_factor
    rw [hpo]
    have hmin : NewMlGrade.min_all_odds (some ho) (some ao) (some dr) =
        some (min ho (min ao dr)) := rfl
    rw [hmin, hsome, if_neg (by push_neg; exact ⟨by linarith, by linarith⟩)]
    split_ifs <;> rfl
  · intro pw ho ao dr h
    unfold NewMlGrade.row_market_factor
    rw [h]
    simp [NewMlGrade.get_pred_side_odds, NewMlGrade.calc_market_factor]
  · intro pw ho ao dr h
    unfold NewMlGrade.row_market_factor
    rw [h]
    rfl
  · intro pw ho ao dr po hpo hle
    unfold NewMlGrade.row_market_factor
    rw [hpo]
    rcases hmo : NewMlGrade.min_all_odds ho ao dr with _ | mo
    · rfl
    · rw [hsome, if_pos (Or.inl hle)]
  · intro pw ho ao dr mo hmo hle
    rcases hpo : NewMlGrade.get_pred_side_odds (NewMlGrade.get_pred_side pw) ho ao dr with
      _ | po
    · unfold NewMlGrade.row_market_factor
      rw [hpo]
      rfl
    · unfold NewMlGrade.row_market_factor
      rw [hpo, hmo, hsome, if_pos (Or.inr hle)]

/-- C2 witness: the spec's concrete moneyline scenario — predicted Home with
odds `{Home: 1.5, Away: 6.0, Draw: 4.0}`; Home is the favourite so the market
factor is `1/1.5 = 2/3`. -/
theorem C2_witness :
    NewMlGrade.row_market_factor "Home Win" (some 1.5) (some 6) (some 4) = some (2 / 3) := by
  have h := C2_market_factor.1 "Home Win" 1.5 6 4 (by norm_num) (by norm_num) (by norm_num)
    1.5 (by norm_num [NewMlGrade.get_pred_side, NewMlGrade.get_pred_side_odds])
  rw [h]
  rw [if_pos (show npIsClose 1.5 (min 1.5 (min 6 4)) = true by
    norm_num [npIsClose, min_def]
    positivity)]
  norm_num

/-- Helper: with distinct team names, neither equal to `"Draw"`, the
actual-winner string identifies the side uniquely. -/
theorem actual_winner_cases (ht' at' : String) (hs aws : ℤ)
    (hht : ht' ≠ "Draw") (hat : at' ≠ "Draw") (hne : ht' ≠ at') :
    (ValidateMain.actual_winner ht' at' hs aws = ht' ↔ hs > aws) ∧
    (ValidateMain.actual_winner ht' at' hs aws = at' ↔ aws > hs) ∧
    (ValidateMain.actual_winner ht' at' hs aws = "Draw" ↔ hs = aws) := by
  unfold ValidateMain.actual_winner
  split_ifs with h1 h2
  · exact ⟨⟨fun _ => h1, fun _ => rfl⟩,
      ⟨fun hx => absurd hx hne, fun hx => absurd hx (by omega)⟩,
      ⟨fun hx => absurd hx hht, fun hx => absurd hx (by omega)⟩⟩
  · exact ⟨⟨fun hx => absurd hx.symm hne, fun hx => absurd hx h1⟩,
      ⟨fun _ => h2, fun _ => rfl⟩,
      ⟨fun hx => absurd hx hat, fun hx => absurd hx (by omega)⟩⟩
  · exact ⟨⟨fun hx => absurd hx.symm hht, fun hx => absurd hx h1⟩,
      ⟨fun hx => absurd hx.symm hat, fun hx => absurd hx h2⟩,
      ⟨fun _ => by omega, fun _ => rfl⟩⟩

/-- Helper: which label the actual over/under string carries, in terms of the
goal total. -/
theorem actual_over_under_contains (tg : ℤ) :
    (strContains (ValidateMain.actual_over_under tg) "Over" = true ↔ (tg : ℚ) > 2.5) ∧
    (strContains (ValidateMain.actual_over_under tg) "Under" = true ↔ ¬((tg : ℚ) > 2.5)) := by
  unfold ValidateMain.actual_over_under
  split_ifs with h
  · constructor
    · simp only [show strContains "Over 2.5" "Over" = true from by decide]
      simp [h]
    · simp only [show strContains "Over 2.5" "Under" = false from by decide]
      simp [h]
  · constructor
    · simp only [show strContains "Under 2.5" "Over" = false from by decide]
      simp [h]
    · simp only [show strContains "Under 2.5" "Under" = true from by decide]
      simp [h]

/-- Helper: the moneyline settlement of `validate_main.py`, rephrased through
the predicted and actual sides: a recognised label pays `settleWin` on the
predicted side's odds when it matches the actual side and `-1` otherwise. -/
theorem profit_loss_ml_eq (r : ValidateMain.Row) (hs aws : ℤ)
    (hht : r.home_team ≠ "Draw") (hat : r.away_team ≠ "Draw")
    (hne : r.home_team ≠ r.away_team)
    (side : String) (hside : NewMlGrade.get_pred_side r.predicted_winner = some side) :
    ValidateMain.profit_loss_ml r hs aws =
      if side = mlActualSide hs aws then ValidateMain.settleWin (mlSideOddsOf r side)
      else -1 := by
  obtain ⟨i1, i2, i3⟩ := actual_winner_cases r.home_team r.away_team hs aws hht hat hne
  unfold NewMlGrade.get_pred_side at hside
  split_ifs at hside with w1 w2 w3
  · injection hside with hval
    subst hval
    have hodds : mlSideOddsOf r "home" = r.home_odds := rfl
    unfold ValidateMain.profit_loss_ml
    rw [if_pos w1]
    by_cases h : hs > aws
    · have hma : mlActualSide hs aws = "home" := by
        unfold mlActualSide
        rw [if_pos h]
      rw [if_pos (i1.mpr h), hma, if_pos rfl, hodds]
    · have hma : mlActualSide hs aws ≠ "home" := by
        unfold mlActualSide
        split_ifs with a b <;> simp_all
      rw [if_neg (fun hx => h (i1.mp hx)), if_neg (fun hx => hma hx.symm)]
  · injection hside with hval
    subst hval
    have hodds : mlSideOddsOf r "away" = r.away_odds := rfl
    unfold ValidateMain.profit_loss_ml
    rw [if_neg w1, if_pos w2]
    by_cases h : aws > hs
    · have hma : mlActualSide hs aws = "away" := by
        unfold mlActualSide
        rw [if_neg (show ¬hs > aws by omega), if_pos h]
      rw [if_pos (i2.mpr h), hma, if_pos rfl, hodds]
    · have hma : mlActualSide hs aws ≠ "away" := by
        unfold mlActualSide
        split_ifs with a b <;> simp_all
      rw [if_neg (fun hx => h (i2.mp hx)), if_neg (fun hx => hma hx.symm)]
  · injection hside with hval
    subst hval
    have hodds : mlSideOddsOf r "draw" = r.draw_odds := rfl
    unfold ValidateMain.profit_loss_ml
    rw [if_neg w1, if_neg w2, if_pos w3]
    by_cases h : hs = aws
    · have hma : mlActualSide hs aws = "draw" := by
        unfold mlActualSide
        rw [if_neg (show ¬hs > aws by omega), if_neg (show ¬aws > hs by omega)]
      rw [if_pos (i3.mpr h), hma, if_pos rfl, hodds]
    · have hma : mlActualSide hs aws ≠ "draw" := by
        unfold mlActualSide
        split_ifs with a b <;> simp_all <;> omega
      rw [if_neg (fun hx => h (i3.mp hx)), if_neg (fun hx => hma hx.symm)]

/-- Helper: the over/under settlement of `validate_main.py`, rephrased through
the predicted and actual totals sides, for rows whose label parses. -/
theorem profit_loss_ou_eq (r : ValidateMain.Row) (tg : ℤ)
    (dir : String) (hdir : OuGrade.ou_predicted_direction r.predicted_outcome = some dir) :
    ValidateMain.profit_loss_ou r tg =
      if dir = ouActualSide tg then ValidateMain.settleWin (ouSideOddsOf r dir)
      else -1 := by
  obtain ⟨c1, c2⟩ := actual_over_under_contains tg
  unfold OuGrade.ou_predicted_direction at hdir
  split_ifs at hdir with d1 d2
  · injection hdir with hval
    subst hval
    have hodds : ouSideOddsOf r "over" = r.over_2_5_odds := rfl
    unfold ValidateMain.profit_loss_ou
    rw [if_pos d1]
    by_cases h : (tg : ℚ) > 2.5
    · have hoa : ouActualSide tg = "over" := by
        unfold ouActualSide
        rw [if_pos h]
      rw [if_pos (c1.mpr h), hoa, if_pos rfl, hodds]
    · have hoa : ouActualSide tg = "under" := by
        unfold ouActualSide
        rw [if_neg h]
      rw [if_neg (fun hx => h (c1.mp hx)), hoa,
        if_neg (show ("over" : String) ≠ "under" by decide)]
  · injection hdir with hval
    subst hval
    have hodds : ouSideOddsOf r "under" = r.under_2_5_odds := rfl
    unfold ValidateMain.profit_loss_ou
    rw [if_neg d1]
    by_cases h : (tg : ℚ) > 2.5
    · have hoa : ouActualSide tg = "over" := by
        unfold ouActualSide
        rw [if_pos h]
      rw [if_neg (fun hx => (c2.mp hx) h), hoa,
        if_neg (show ("under" : String) ≠ "over" by decide)]
    · have hoa : ouActualSide tg = "under" := by
        unfold ouActualSide
        rw [if_neg h]
      rw [if_pos (c2.mpr h), hoa, if_pos rfl, hodds]

/-- Helper: the moneyline settlement of `v3_validate.py`, rephrased through
the predicted and actual sides: a recognised label that matches pays
`round(odds - 1, 2)` on the predicted side's odds, anything else loses the
stake. -/
theorem profit_loss_winner_eq (pw ht' at' : String) (hs aws : ℤ) (oh oa od : ℚ)
    (hht : ht' ≠ "Draw") (hat : at' ≠ "Draw") (hne : ht' ≠ at')
    (side : String) (hside : NewMlGrade.get_pred_side pw = some side) :
    V3Validate.profit_loss_winner pw ht' at'
        (ValidateMain.actual_winner ht' at' hs aws) oh oa od =
      if side = mlActualSide hs aws then
        pyRound2 ((if side = "home" then oh else if side = "away" then oa else od) - 1)
      else -1 := by
  obtain ⟨i1, i2, i3⟩ := actual_winner_cases ht' at' hs aws hht hat hne
  unfold NewMlGrade.get_pred_side at hside
  split_ifs at hside with w1 w2 w3
  · injection hside with hval
    subst hval
    have hpw2 : pw ≠ "Away Win" := by rw [w1]; decide
    have hpw3 : pw ≠ "Draw" := by rw [w1]; decide
    unfold V3Validate.profit_loss_winner
    by_cases h : hs > aws
    · have hma : mlActualSide hs aws = "home" := by
        unfold mlActualSide
        rw [if_pos h]
      rw [if_pos ⟨w1, i1.mpr h⟩, hma, if_pos rfl, if_pos rfl]
    · have hma : mlActualSide hs aws ≠ "home" := by
        unfold mlActualSide
        split_ifs with a b <;> simp_all
      rw [if_neg (fun hx => h (i1.mp hx.2)), if_neg (fun hx => hpw2 hx.1),
        if_neg (fun hx => hpw3 hx.1), if_neg (fun hx => hma hx.symm)]
  · injection hside with hval
    subst hval
    have hpw3 : pw ≠ "Draw" := by rw [w2]; decide
    unfold V3Validate.profit_loss_winner
    by_cases h : aws > hs
    · have hma : mlActualSide hs aws = "away" := by
        unfold mlActualSide
        rw [if_neg (show ¬hs > aws by omega), if_pos h]
      rw [if_neg (fun hx => w1 hx.1), if_pos ⟨w2, i2.mpr h⟩, hma, if_pos rfl,
        if_neg (show ("away" : String) ≠ "home" by decide), if_pos rfl]
    · have hma : mlActualSide hs aws ≠ "away" := by
        unfold mlActualSide
        split_ifs with a b <;> simp_all
      rw [if_neg (fun hx => w1 hx.1), if_neg (fun hx => h (i2.mp hx.2)),
        if_neg (fun hx => hpw3 hx.1), if_neg (fun hx => hma hx.symm)]
  · injection hside with hval
    subst hval
    unfold V3Validate.profit_loss_winner
    by_cases h : hs = aws
    · have hma : mlActualSide hs aws = "draw" := by
        unfold mlActualSide
        rw [if_neg (show ¬hs > aws by omega), if_neg (show ¬aws > hs by omega)]
      rw [if_neg (fun hx => w1 hx.1), if_neg (fun hx => w2 hx.1),
        if_pos ⟨w3, i3.mpr h⟩, hma, if_pos rfl,
        if_neg (show ("draw" : String) ≠ "home" by decide),
        if_neg (show ("draw" : String) ≠ "away" by decide)]
    · have hma : mlActualSide hs aws ≠ "draw" := by
        unfold mlActualSide
        split_ifs with a b <;> simp_all <;> omega
      rw [if_neg (fun hx => w1 hx.1), if_neg (fun hx => w2 hx.1),
        if_neg (fun hx => h (i3.mp hx.2)), if_neg (fun hx => hma hx.symm)]

/-- C1: for every settled match with a recognised predicted label, if the
predicted side equals the actual side then the profit/loss equals
`round(oddsOfferedOnPredictedSide - 1, 2)` (whenever those odds are present),
and if the predicted side differs from the actual side then the profit/loss
equals `-1.0` regardless of the odds on the predicted side; this holds for
the over/under and moneyline settlements of `validate_main.py` (duplicated
verbatim in `validate_predictions.py`) and for `profit_loss_winner` of
`v3_validate.py`. -/
theorem C1_settlement (r : ValidateMain.Row) (hs aws : ℤ)
    (hht : r.home_team ≠ "Draw") (hat : r.away_team ≠ "Draw")
    (hne : r.home_team ≠ r.away_team) :
    (∀ side, NewMlGrade.get_pred_side r.predicted_winner = some side →
       (side = mlActualSide hs aws →
          ∀ v : ℚ, mlSideOddsOf r side = some v →
            ValidateMain.profit_loss_ml r hs aws = pyRound2 (v - 1)) ∧
       (side ≠ mlActualSide hs aws →
          ValidateMain.profit_loss_ml r hs aws = -1)) ∧
    (∀ dir, OuGrade.ou_predicted_direction r.predicted_outcome = some dir →
       (dir = ouActualSide (hs + aws) →
          ∀ v : ℚ, ouSideOddsOf r dir = some v →
            ValidateMain.profit_loss_ou r (hs + aws) = pyRound2 (v - 1)) ∧
       (dir ≠ ouActualSide (hs + aws) →
          ValidateMain.profit_loss_ou r (hs + aws) = -1)) ∧
    (∀ (pw : String) (oh oa od : ℚ) side, NewMlGrade.get_pred_side pw = some side →
       (side = mlActualSide hs aws →
          V3Validate.profit_loss_winner pw r.home_team r.away_team
              (ValidateMain.actual_winner r.home_team r.away_team hs aws) oh oa od =
            pyRound2 ((if side = "home" then oh else if side = "away" then oa else od) - 1)) ∧
       (side ≠ mlActualSide hs aws →
          V3Validate.profit_loss_winner pw r.home_team r.away_team
              (ValidateMain.actual_winner r.home_team r.away_team hs aws) oh oa od = -1)) := by
  refine ⟨?_, ?_, ?_⟩
  · intro side hside
    have heq := profit_loss_ml_eq r hs aws hht hat hne side hside
    constructor
    · intro hm v hv
      rw [heq, if_pos hm, hv]
      rfl
    · intro hm
      rw [heq, if_neg hm]
  · intro dir hdir
    have heq := profit_loss_ou_eq r (hs + aws) dir hdir
    constructor
    · intro hm v hv
      rw [heq, if_pos hm, hv]
      rfl
    · intro hm
      rw [heq, if_neg hm]
  · intro pw oh oa od side hside
    have heq := profit_loss_winner_eq pw r.home_team r.away_team hs aws oh oa od
      hht hat hne side hside
    exact ⟨fun hm => by rw [heq, if_pos hm], fun hm => by rw [heq, if_neg hm]⟩

/-- C1 witness: the spec's settlement scenario — predicted `"Home Win"` at
home odds `2.5` with a 2–1 final pays `1.5`, and a predicted `"Over 2.5"` at
odds `2.0` with 3 total goals pays exactly `1.0`. -/
theorem C1_witness :
    ValidateMain.profit_loss_ml
      { home_team := "Alpha", away_team := "Beta", predicted_outcome := "Over 2.5",
        predicted_winner := "Home Win", ctmcl := 2.5, over_2_5_odds := some 2,
        under_2_5_odds := some 1.9, home_odds := some 2.5, away_odds := some 3,
        draw_odds := some 4 } 2 1 = 1.5 ∧
    ValidateMain.profit_loss_ou
      { home_team := "Alpha", away_team := "Beta", predicted_outcome := "Over 2.5",
        predicted_winner := "Home Win", ctmcl := 2.5, over_2_5_odds := some 2,
        under_2_5_odds := some 1.9, home_odds := some 2.5, away_odds := some 3,
        draw_odds := some 4 } (2 + 1) = 1 := by
  have h := C1_settlement
    { home_team := "Alpha", away_team := "Beta", predicted_outcome := "Over 2.5",
      predicted_winner := "Home Win", ctmcl := 2.5, over_2_5_odds := some 2,
      under_2_5_odds := some 1.9, home_odds := some 2.5, away_odds := some 3,
      draw_odds := some 4 } 2 1 (by decide) (by decide) (by decide)
  constructor
  · have h1 := (h.1 "home" (by decide)).1 (by decide) 2.5 rfl
    rw [h1]
    norm_num [pyRound2]
  · have h2 := (h.2.1 "over" (by decide)).1 (by norm_num [ouActualSide]) 2 rfl
    rw [h2]
    norm_num [pyRound2]

/-- C6 counterexample: a predicted `"Home Win"` with missing home odds that
*loses* (actual final 0–1) settles at `-1.0`, not `0`; the claimed push
behaviour for missing odds holds only on the winning branch, so it is not
irrespective of the match outcome. -/
theorem C6_counterexample :
    ValidateMain.profit_loss_ml
      { home_team := "Alpha", away_team := "Beta", predicted_outcome := "Over 2.5",
        predicted_winner := "Home Win", ctmcl := 2.5, over_2_5_odds := none,
        under_2_5_odds := none, home_odds := none, away_odds := some 3,
        draw_odds := some 4 } 0 1 = -1 ∧ (-1 : ℚ) ≠ 0 := by
  constructor
  · rw [profit_loss_ml_eq _ 0 1 (by decide) (by decide) (by decide) "home" (by decide),
      if_neg (by decide)]
  · norm_num

/-- C6 (amended): when the odds on the predicted side are missing at
settlement time and the prediction *matches* the actual side, the profit/loss
is `0` (the bet is treated as a push) rather than an exception being raised;
when the prediction does not match, the profit/loss is `-1.0` whether or not
the odds are available. -/
theorem C6_missing_odds (r : ValidateMain.Row) (hs aws : ℤ)
    (hht : r.home_team ≠ "Draw") (hat : r.away_team ≠ "Draw")
    (hne : r.home_team ≠ r.away_team) :
    (∀ side, NewMlGrade.get_pred_side r.predicted_winner = some side →
       side = mlActualSide hs aws → mlSideOddsOf r side = none →
         ValidateMain.profit_loss_ml r hs aws = 0) ∧
    (∀ dir, OuGrade.ou_predicted_direction r.predicted_outcome = some dir →
       dir = ouActualSide (hs + aws) → ouSideOddsOf r dir = none →
         ValidateMain.profit_loss_ou r (hs + aws) = 0) ∧
    (∀ side, NewMlGrade.get_pred_side r.predicted_winner = some side →
       side ≠ mlActualSide hs aws → ValidateMain.profit_loss_ml r hs aws = -1) ∧
    (∀ dir, OuGrade.ou_predicted_direction r.predicted_outcome = some dir →
       dir ≠ ouActualSide (hs + aws) → ValidateMain.profit_loss_ou r (hs + aws) = -1) := by
  refine ⟨?_, ?_, ?_, ?_⟩
  · intro side hside hm hnone
    rw [profit_loss_ml_eq r hs aws hht hat hne side hside, if_pos hm, hnone]
    rfl
  · intro dir hdir hm hnone
    rw [profit_loss_ou_eq r (hs + aws) dir hdir, if_pos hm, hnone]
    rfl
  · intro side hside hm
    rw [profit_loss_ml_eq r hs aws hht hat hne side hside, if_neg hm]
  · intro dir hdir hm
    rw [profit_loss_ou_eq r (hs + aws) dir hdir, if_neg hm]

/-- C6 witness: a winning `"Home Win"` prediction (1–0 final) with missing
home odds settles as a `0` push. -/
theorem C6_witness :
    ValidateMain.profit_loss_ml
      { home_team := "Alpha", away_team := "Beta", predicted_outcome := "Over 2.5",
        predicted_winner := "Home Win", ctmcl := 2.5, over_2_5_odds := none,
        under_2_5_odds := none, home_odds := none, away_odds := some 3,
        draw_odds := some 4 } 1 0 = 0 :=
  (C6_missing_odds
    { home_team := "Alpha", away_team := "Beta", predicted_outcome := "Over 2.5",
      predicted_winner := "Home Win", ctmcl := 2.5, over_2_5_odds := none,
      under_2_5_odds := none, home_odds := none, away_odds := some 3,
      draw_odds := some 4 } 1 0 (by decide) (by decide) (by decide)).1
    "home" (by decide) (by decide) rfl

/-- Helper: with positive over/under odds the O/U market factor is positive. -/
theorem ou_market_factor_pos (dir : String) (ov un : ℚ)
    (hov : 0 < ov) (hun : 0 < un) : 0 < OuGrade.ou_market_factor dir ov un := by
  unfold OuGrade.ou_market_factor
  split_ifs <;> positivity

/-- C5: for a totals prediction with present, positive Over/Under odds and a
parseable label: predicting over with the predicted total at or above the 2.5
line keeps the distance factor `|total - 2.5|` unmodified; predicting over
below the line dampens it by `minOdds / maxOdds`; symmetrically for under
with the inequalities flipped; the confidence is `distanceFactor *
marketFactor`, and a negative confidence is treated as undefined, so no
signed (negative) confidence value is ever produced. -/
theorem C5_ou_confidence (ph pa ov un : ℚ) (label : String)
    (hov : 0 < ov) (hun : 0 < un) :
    (OuGrade.ou_predicted_direction label = some "over" → ph + pa ≥ 2.5 →
       OuGrade.calculate_advanced_ou_confidence ph pa (some ov) (some un) label =
         some (|ph + pa - 2.5| * OuGrade.ou_market_factor "over" ov un)) ∧
    (OuGrade.ou_predicted_direction label = some "over" → ph + pa < 2.5 →
       OuGrade.calculate_advanced_ou_confidence ph pa (some ov) (some un) label =
         some (|ph + pa - 2.5| * (min ov un / max ov un) *
           OuGrade.ou_market_factor "over" ov un)) ∧
    (OuGrade.ou_predicted_direction label = some "under" → ph + pa ≤ 2.5 →
       OuGrade.calculate_advanced_ou_confidence ph pa (some ov) (some un) label =
         some (|ph + pa - 2.5| * OuGrade.ou_market_factor "under" ov un)) ∧
    (OuGrade.ou_predicted_direction label = some "under" → 2.5 < ph + pa →
       OuGrade.calculate_advanced_ou_confidence ph pa (some ov) (some un) label =
         some (|ph + pa - 2.5| * (min ov un / max ov un) *
           OuGrade.ou_market_factor "under" ov un)) ∧
    (∀ (oo uo : Option ℚ) (c : ℚ),
       OuGrade.calculate_advanced_ou_confidence ph pa oo uo label = some c → 0 ≤ c) := by
  have hno : ¬(ov ≤ 0 ∨ un ≤ 0) := by
    push_neg
    exact ⟨hov, hun⟩
  have hmn : (if ov < un then ov else un) = min ov un := by
    by_cases h : ov < un
    · rw [if_pos h, min_eq_left h.le]
    · rw [if_neg h, min_eq_right (not_lt.1 h)]
  have hmx : (if ov < un then un else ov) = max ov un := by
    by_cases h : ov < un
    · rw [if_pos h, max_eq_right h.le]
    · rw [if_neg h, max_eq_left (not_lt.1 h)]
  have hmfo := ou_market_factor_pos "over" ov un hov hun
  have hmfu := ou_market_factor_pos "under" ov un hov hun
  have hminmax : 0 ≤ min ov un / max ov un := by positivity
  refine ⟨?_, ?_, ?_, ?_, ?_⟩
  · intro hdir hge
    simp only [OuGrade.calculate_advanced_ou_confidence, hdir, if_neg hno]
    rw [if_pos trivial, if_pos hge,
      if_pos (mul_nonneg (abs_nonneg _) hmfo.le)]
  · intro hdir hlt
    simp only [OuGrade.calculate_advanced_ou_confidence, hdir, if_neg hno]
    rw [if_pos trivial,
      if_neg (show ¬ph + pa ≥ 2.5 by linarith), hmn, hmx,
      if_pos (mul_nonneg (mul_nonneg (abs_nonneg _) hminmax) hmfo.le)]
  · intro hdir hle
    simp only [OuGrade.calculate_advanced_ou_confidence, hdir, if_neg hno]
    rw [if_neg (show ¬("under" : String) = "over" by decide), if_pos hle,
      if_pos (mul_nonneg (abs_nonneg _) hmfu.le)]
  · intro hdir hgt
    simp only [OuGrade.calculate_advanced_ou_confidence, hdir, if_neg hno]
    rw [if_neg (show ¬("under" : String) = "over" by decide),
      if_neg (show ¬ph + pa ≤ 2.5 by linarith), hmn, hmx,
      if_pos (mul_nonneg (mul_nonneg (abs_nonneg _) hminmax) hmfu.le)]
  · intro oo uo c h
    rcases oo with _ | ov' <;> rcases uo with _ | un' <;>
      simp only [OuGrade.calculate_advanced_ou_confidence] at h
    · exact absurd h (by simp)
    · exact absurd h (by simp)
    · exact absurd h (by simp)
    · rcases hdir : OuGrade.ou_predicted_direction label with _ | dir <;> rw [hdir] at h
      · split_ifs at h <;> simp_all
      · split_ifs at h <;> simp_all <;> linarith

/-- C5 witness: the spec's concrete totals scenario — predicted total `3.1`
over the `2.5` line predicting `"Over 2.5"` at odds `1.8` against `2.0`:
distance `0.6` unmodified, market factor `1/1.8`, confidence `1/3` ≈ 0.333. -/
theorem C5_witness :
    OuGrade.calculate_advanced_ou_confidence 1.6 1.5 (some 1.8) (some 2) "Over 2.5" =
      some (1 / 3) := by
  have h := (C5_ou_confidence 1.6 1.5 1.8 2 "Over 2.5" (by norm_num) (by norm_num)).1
    (by decide) (by norm_num)
  rw [h]
  norm_num [OuGrade.ou_market_factor, abs_of_nonneg]
